import Mathlib

/-!
Verification of the manadj cross-library reconciliation engine.

Shallow embedding of the core pure logic of the repository:
* `src/backend/sync_common/matching.py` (two-tier track matcher),
* `src/backend/tags/sync_manager.py` (synced predicate),
* `src/backend/playlists/sync_manager.py` (playlist sync control flow),
* `src/backend/beatgrid_utils.py` (beatgrid calculator),
* `src/backend/key.py` (key normalizer),
* `src/enginedj/sync.py` (track reconciliation).

Python dicts are modelled as association lists where insertion conses the
new binding in front (so lookup, which returns the first binding found,
sees the most recently inserted value — matching Python dict overwrite
semantics for the lookups the code performs).  Python floats are modelled
as exact rationals.  Python functions that raise or diverge are modelled
with `Option`, returning `none` exactly on the raising/diverging inputs.
-/

namespace Manadj

/-- Python dict assignment `d[k] = v`: the new binding shadows older ones. -/
def dictInsert {T : Type} (k : String) (v : T) (d : List (String × T)) :
    List (String × T) :=
  (k, v) :: d

/-- Python dict lookup `d.get(k)` / `d[k]`: first (most recent) binding wins. -/
def dictLookup {T : Type} (k : String) : List (String × T) → Option T
  | [] => none
  | (k2, v) :: rest => if k2 = k then some v else dictLookup k rest

/-- Split a character list at every `/`, keeping components in order. -/
def splitOnSlash : List Char → List (List Char)
  | [] => [[]]
  | c :: rest =>
    match splitOnSlash rest with
    | [] => [[]]
    | cur :: done => if c = '/' then [] :: cur :: done else (c :: cur) :: done

/-- Python `pathlib.Path(s).name`: the last nonempty `/`-separated component
(pathlib drops empty components, so trailing or doubled slashes are ignored). -/
def pathBasename (s : String) : String :=
  match ((splitOnSlash s.data).filter (fun c => c ≠ [])).getLast? with
  | some c => String.mk c
  | none => ""

/-- `index_tracks_by_path` from `src/backend/sync_common/matching.py`:
build the full-path index and the basename index in one pass over the
tracks; a falsy (absent or empty) path or filename is skipped. -/
def index_tracks_by_path {T : Type} (tracks : List T)
    (path_getter : T → Option String) (filename_getter : T → Option String) :
    List (String × T) × List (String × T) :=
  tracks.foldl
    (fun acc track =>
      let byPath :=
        match path_getter track with
        | some p => if p = "" then acc.1 else dictInsert p track acc.1
        | none => acc.1
      let byFilename :=
        match filename_getter track with
        | some f => if f = "" then acc.2 else dictInsert (pathBasename f) track acc.2
        | none => acc.2
      (byPath, byFilename))
    ([], [])

/-- `match_track_two_tier` from `src/backend/sync_common/matching.py`:
exact full-path lookup first; on miss, basename lookup; on miss, `none`. -/
def match_track_two_tier {T : Type} (source_path : String)
    (target_by_path target_by_filename : List (String × T)) : Option T :=
  match dictLookup source_path target_by_path with
  | some t => some t
  | none => dictLookup (pathBasename source_path) target_by_filename

end Manadj

namespace Manadj

/-- Concrete path getter used only to witness the matcher claims: track 1
lives at `/a/x.mp3`, every other track at `/b/x.mp3`. -/
def witnessGetter (t : Nat) : Option String :=
  if t = 1 then some "/a/x.mp3" else some "/b/x.mp3"

/-- Claim C1: `match_track_two_tier` returns the track stored under the exact
full path whenever the query is a key of the path index, and only on a
path-index miss falls back to the basename lookup (returning `none` when that
also misses); two indexed tracks sharing a basename but with different full
paths are each found under their own full path, while the filename index alone
keeps only the last-indexed track per basename. -/
theorem claim_C1 (T : Type) (q : String) (byPath byFilename : List (String × T))
    (pg fg : T → Option String) (t1 t2 : T) (p1 p2 f1 f2 : String) :
    (∀ tr, dictLookup q byPath = some tr →
      match_track_two_tier q byPath byFilename = some tr)
    ∧ (dictLookup q byPath = none →
      match_track_two_tier q byPath byFilename =
        dictLookup (pathBasename q) byFilename)
    ∧ (pg t1 = some p1 → pg t2 = some p2 → p1 ≠ "" → p2 ≠ "" → p1 ≠ p2 →
      match_track_two_tier p1 (index_tracks_by_path [t1, t2] pg fg).1
          (index_tracks_by_path [t1, t2] pg fg).2 = some t1
      ∧ match_track_two_tier p2 (index_tracks_by_path [t1, t2] pg fg).1
          (index_tracks_by_path [t1, t2] pg fg).2 = some t2)
    ∧ (fg t1 = some f1 → fg t2 = some f2 → f1 ≠ "" → f2 ≠ "" →
      pathBasename f1 = pathBasename f2 →
      dictLookup (pathBasename f1) (index_tracks_by_path [t1, t2] pg fg).2 =
        some t2) := by
  refine ⟨?_, ?_, ?_, ?_⟩
  · intro tr h
    simp [match_track_two_tier, h]
  · intro h
    simp [match_track_two_tier, h]
  · intro h1 h2 hp1 hp2 hne
    constructor
    · simp [index_tracks_by_path, dictInsert, dictLookup, match_track_two_tier,
        h1, h2, hp1, hp2, hne.symm]
    · simp [index_tracks_by_path, dictInsert, dictLookup, match_track_two_tier,
        h1, h2, hp1, hp2]
  · intro hf1 hf2 he1 he2 hb
    simp [index_tracks_by_path, dictInsert, dictLookup, hf1, hf2, he1, he2, hb]

/-- Claim C1 witness: concrete two-track collision scenario (`/a/x.mp3` and
`/b/x.mp3` share basename `x.mp3`): each full path finds its own track, and
the filename index holds the last-indexed track. -/
theorem claim_C1_witness :
    match_track_two_tier "/a/x.mp3" [("/a/x.mp3", 1)]
      ([] : List (String × Nat)) = some 1
    ∧ match_track_two_tier "/a/x.mp3"
        (index_tracks_by_path [1, 2] witnessGetter witnessGetter).1
        (index_tracks_by_path [1, 2] witnessGetter witnessGetter).2 = some 1
    ∧ match_track_two_tier "/b/x.mp3"
        (index_tracks_by_path [1, 2] witnessGetter witnessGetter).1
        (index_tracks_by_path [1, 2] witnessGetter witnessGetter).2 = some 2
    ∧ dictLookup (pathBasename "/a/x.mp3")
        (index_tracks_by_path [1, 2] witnessGetter witnessGetter).2 = some 2 := by
  have h := claim_C1 Nat "/a/x.mp3" [("/a/x.mp3", 1)] [] witnessGetter
    witnessGetter 1 2 "/a/x.mp3" "/b/x.mp3" "/a/x.mp3" "/b/x.mp3"
  have h3 := h.2.2.1 (by decide) (by decide) (by decide) (by decide) (by decide)
  have h4 := h.2.2.2 (by decide) (by decide) (by decide) (by decide) (by decide)
  exact ⟨h.1 1 (by decide), h3.1, h3.2, h4⟩

end Manadj

namespace Manadj

/-- Per-source view of a matched tag: only its track count matters to the
synced predicate (`TagInfo.track_count` in `src/backend/tags/models.py`). -/
structure TagView where
  track_count : Int
deriving DecidableEq

/-- `TagSyncManager._check_if_synced` from `src/backend/tags/sync_manager.py`.
`engine_reader` / `rb_reader` model whether the corresponding optional
database connection was configured; `manadj`, `engine`, `rekordbox` are the
per-source entries of the matched `(category, tag)` pair (absent = `none`).
The sequence of early `return False` exits is modelled as a conjunction. -/
def check_if_synced (engine_reader rb_reader : Bool)
    (manadj engine rekordbox : Option TagView) : Bool :=
  match manadj with
  | none => false
  | some manadj_tag =>
    (if engine_reader then
      match engine with
      | none => false
      | some engine_tag => engine_tag.track_count == manadj_tag.track_count
     else true)
    &&
    (if rb_reader then
      match rekordbox with
      | none => false
      | some rb_tag => rb_tag.track_count == manadj_tag.track_count
     else true)

/-- Claim C2: the synced flag is true iff the manadj tag is present and, for
each of the two other sources that is configured, that source's tag is also
present with exactly the manadj track count; a configured-but-missing source
forces false, an unconfigured source is ignored. -/
theorem claim_C2 (engine_reader rb_reader : Bool)
    (manadj engine rekordbox : Option TagView) :
    check_if_synced engine_reader rb_reader manadj engine rekordbox = true ↔
      ∃ mt, manadj = some mt
        ∧ (engine_reader = true →
            ∃ et, engine = some et ∧ et.track_count = mt.track_count)
        ∧ (rb_reader = true →
            ∃ rt, rekordbox = some rt ∧ rt.track_count = mt.track_count) := by
  cases manadj with
  | none => simp [check_if_synced]
  | some mt =>
    cases engine_reader <;> cases rb_reader <;>
      cases engine <;> cases rekordbox <;>
        simp [check_if_synced, beq_iff_eq]

/-- Claim C2 witness: with both other sources configured and all three
sources holding the tag at track count 3, the pair is synced. -/
theorem claim_C2_witness :
    check_if_synced true true (some ⟨3⟩) (some ⟨3⟩) (some ⟨3⟩) = true :=
  (claim_C2 true true (some ⟨3⟩) (some ⟨3⟩) (some ⟨3⟩)).mpr
    ⟨⟨3⟩, rfl, fun _ => ⟨⟨3⟩, rfl, rfl⟩, fun _ => ⟨⟨3⟩, rfl, rfl⟩⟩

end Manadj

namespace Manadj

/-- `TrackReference` (value object in `src/backend/playlists/models.py`):
the two fields the sync path uses — full path (match key) and basename. -/
structure TrackReference where
  path : String
  filename : String
deriving DecidableEq

/-- `SyncResult` from `src/backend/playlists/models.py`. -/
structure SyncResult where
  target : String
  success : Bool
  created : Bool
  tracks_synced : Nat
  tracks_unmatched : List String
  error : Option String
deriving DecidableEq

/-- Outcome of a `_sync_to_*` write helper: a returned `was_created` flag,
or a raised exception carrying its message. -/
inductive WriteOutcome where
  | ok (was_created : Bool)
  | err (msg : String)

/-- The matching loop shared by `_match_tracks_to_manadj` /
`_match_tracks_to_engine` / `_match_tracks_to_rekordbox` in
`src/backend/playlists/sync_manager.py`: two-tier-match every reference,
collecting matched target tracks and unmatched source filenames in order. -/
def match_tracks_loop {T : Type} (track_refs : List TrackReference)
    (byPath byFilename : List (String × T)) : List T × List String :=
  track_refs.foldl
    (fun acc ref =>
      match match_track_two_tier ref.path byPath byFilename with
      | some t => (acc.1 ++ [t], acc.2)
      | none => (acc.1, acc.2 ++ [ref.filename]))
    ([], [])

/-- `PlaylistSyncManager.sync_playlist_to_target` from
`src/backend/playlists/sync_manager.py`, lines 243-296: the decision core
after source/target validation and playlist lookup.  The target track index
is passed in; the write helper is a parameter; the second component records
the track list handed to the write helper (`none` when no write was
attempted). -/
def sync_playlist_to_target_core {T : Type} (target : String)
    (source_tracks : List TrackReference)
    (byPath byFilename : List (String × T))
    (ignore_missing_tracks dry_run : Bool)
    (write : List T → WriteOutcome) : SyncResult × Option (List T) :=
  let m := match_tracks_loop source_tracks byPath byFilename
  let matched := m.1
  let unmatched := m.2
  if !unmatched.isEmpty && !ignore_missing_tracks then
    ({ target := target, success := false, created := false, tracks_synced := 0,
       tracks_unmatched := unmatched,
       error := some ("Some tracks could not be matched in " ++ target ++
         ". Set ignore_missing_tracks=true to proceed.") }, none)
  else if !dry_run then
    match write matched with
    | WriteOutcome.ok was_created =>
      ({ target := target, success := true, created := was_created,
         tracks_synced := matched.length, tracks_unmatched := unmatched,
         error := none }, some matched)
    | WriteOutcome.err msg =>
      ({ target := target, success := false, created := false, tracks_synced := 0,
         tracks_unmatched := unmatched, error := some msg }, some matched)
  else
    ({ target := target, success := true, created := false,
       tracks_synced := matched.length, tracks_unmatched := unmatched,
       error := none }, none)

/-- The matching loop, accumulator-generalized: matched tracks are the
`filterMap` of successful matches, unmatched names the filenames of the
references that fail to match, both in source order. -/
lemma match_tracks_loop_acc {T : Type} (byPath byFilename : List (String × T)) :
    ∀ (refs : List TrackReference) (acc : List T × List String),
      refs.foldl
        (fun acc ref =>
          match match_track_two_tier ref.path byPath byFilename with
          | some t => (acc.1 ++ [t], acc.2)
          | none => (acc.1, acc.2 ++ [ref.filename])) acc =
      (acc.1 ++ refs.filterMap
          (fun r => match_track_two_tier r.path byPath byFilename),
       acc.2 ++ (refs.filter
          (fun r => (match_track_two_tier r.path byPath byFilename).isNone)).map
          (fun r => r.filename)) := by
  intro refs
  induction refs with
  | nil => intro acc; simp
  | cons r rest ih =>
    intro acc
    cases h : match_track_two_tier r.path byPath byFilename with
    | some t => simp [List.foldl_cons, h, ih, List.filterMap_cons, List.filter_cons]
    | none => simp [List.foldl_cons, h, ih, List.filterMap_cons, List.filter_cons]

/-- Closed form of `match_tracks_loop`. -/
lemma match_tracks_loop_spec {T : Type} (refs : List TrackReference)
    (byPath byFilename : List (String × T)) :
    match_tracks_loop refs byPath byFilename =
      (refs.filterMap (fun r => match_track_two_tier r.path byPath byFilename),
       (refs.filter
          (fun r => (match_track_two_tier r.path byPath byFilename).isNone)).map
          (fun r => r.filename)) := by
  have h := match_tracks_loop_acc byPath byFilename refs ([], [])
  simpa [match_tracks_loop] using h

end Manadj

namespace Manadj

/-- Claim C3 counterexample: with `dry_run = true`, one source track that
matches nothing in the target, and `ignore_missing_tracks = false`, the code
returns the unmatched-tracks failure result (`success = false` with an error
message) instead of a success result previewing what would have happened:
the unmatched check runs before the dry-run branch. -/
theorem claim_C3_counterexample :
    (sync_playlist_to_target_core "engine" [⟨"/a/x.mp3", "x.mp3"⟩]
        ([] : List (String × Nat)) [] false true
        (fun _ => WriteOutcome.ok true)).1.success = false
    ∧ (sync_playlist_to_target_core "engine" [⟨"/a/x.mp3", "x.mp3"⟩]
        ([] : List (String × Nat)) [] false true
        (fun _ => WriteOutcome.ok true)).1.error.isSome = true := by
  constructor <;> rfl

/-- Claim C3 as amended: with `dry_run = true` no write is ever attempted
(so no target write failure can abort), the full matching is performed and
the result always lists every unmatched filename; but when some track is
unmatched and `ignore_missing_tracks` is false the function returns the same
unmatched-tracks failure (`success = false`) as a live run — only otherwise
does it return a success result reporting what would have happened. -/
theorem claim_C3_amended {T : Type} (target : String)
    (source_tracks : List TrackReference)
    (byPath byFilename : List (String × T))
    (ignore_missing_tracks : Bool) (write : List T → WriteOutcome)
    (dry_run : Bool) (hdry : dry_run = true) :
    (sync_playlist_to_target_core target source_tracks byPath byFilename
        ignore_missing_tracks dry_run write).2 = none
    ∧ (sync_playlist_to_target_core target source_tracks byPath byFilename
        ignore_missing_tracks dry_run write).1.tracks_unmatched =
      (source_tracks.filter
          (fun r => (match_track_two_tier r.path byPath byFilename).isNone)).map
        (fun r => r.filename)
    ∧ ((sync_playlist_to_target_core target source_tracks byPath byFilename
        ignore_missing_tracks dry_run write).1.success = true ↔
      ((match_tracks_loop source_tracks byPath byFilename).2 = []
        ∨ ignore_missing_tracks = true))
    ∧ ((sync_playlist_to_target_core target source_tracks byPath byFilename
        ignore_missing_tracks dry_run write).1.success = true →
      (sync_playlist_to_target_core target source_tracks byPath byFilename
        ignore_missing_tracks dry_run write).1.tracks_synced =
      (source_tracks.filterMap
          (fun r => match_track_two_tier r.path byPath byFilename)).length) := by
  subst hdry
  have hspec := match_tracks_loop_spec source_tracks byPath byFilename
  rcases hm : match_tracks_loop source_tracks byPath byFilename with ⟨matched, unmatched⟩
  rw [hm, Prod.mk.injEq] at hspec
  obtain ⟨hA, hB⟩ := hspec
  cases unmatched with
  | nil =>
    simp [sync_playlist_to_target_core, hm, ← hB, hA]
  | cons u us =>
    cases ignore_missing_tracks with
    | false => simp [sync_playlist_to_target_core, hm, ← hB]
    | true => simp [sync_playlist_to_target_core, hm, ← hB, hA]

/-- Claim C3 witness: concrete dry run (unmatched track, ignore flag off):
no write attempted and the unmatched filename is reported. -/
theorem claim_C3_witness :
    (sync_playlist_to_target_core "engine" [⟨"/a/x.mp3", "x.mp3"⟩]
        ([] : List (String × Nat)) [] false true
        (fun _ => WriteOutcome.ok true)).2 = none
    ∧ (sync_playlist_to_target_core "engine" [⟨"/a/x.mp3", "x.mp3"⟩]
        ([] : List (String × Nat)) [] false true
        (fun _ => WriteOutcome.ok true)).1.tracks_unmatched = ["x.mp3"] := by
  have h := claim_C3_amended "engine" [⟨"/a/x.mp3", "x.mp3"⟩]
    ([] : List (String × Nat)) [] false (fun _ => WriteOutcome.ok true) true rfl
  exact ⟨h.1, h.2.1.trans (by decide)⟩

/-- Claim C5: in a live run (`dry_run = false`) with `ignore_missing_tracks`
false, if at least one source track fails the two-tier match against the
target then no write is attempted at all, the result is a failure carrying
an error message, and its unmatched field lists the filename of every
reference that failed to match, in source order. -/
theorem claim_C5 {T : Type} (target : String)
    (source_tracks : List TrackReference)
    (byPath byFilename : List (String × T)) (write : List T → WriteOutcome)
    (h : ∃ r ∈ source_tracks,
      match_track_two_tier r.path byPath byFilename = none) :
    (sync_playlist_to_target_core target source_tracks byPath byFilename
        false false write).2 = none
    ∧ (sync_playlist_to_target_core target source_tracks byPath byFilename
        false false write).1.success = false
    ∧ (sync_playlist_to_target_core target source_tracks byPath byFilename
        false false write).1.error.isSome = true
    ∧ (sync_playlist_to_target_core target source_tracks byPath byFilename
        false false write).1.tracks_unmatched =
      (source_tracks.filter
          (fun r => (match_track_two_tier r.path byPath byFilename).isNone)).map
        (fun r => r.filename) := by
  obtain ⟨r, hr, hnone⟩ := h
  have hmem : r ∈ source_tracks.filter
      (fun s => (match_track_two_tier s.path byPath byFilename).isNone) :=
    List.mem_filter.mpr ⟨hr, by simp [hnone]⟩
  have hfmem : r.filename ∈ (source_tracks.filter
      (fun s => (match_track_two_tier s.path byPath byFilename).isNone)).map
      (fun s => s.filename) := List.mem_map_of_mem _ hmem
  have hBne := List.ne_nil_of_mem hfmem
  have hspec := match_tracks_loop_spec source_tracks byPath byFilename
  have hBfalse : ((source_tracks.filter
      (fun s => (match_track_two_tier s.path byPath byFilename).isNone)).map
      (fun s => s.filename)).isEmpty = false := by
    cases hc : (source_tracks.filter
        (fun s => (match_track_two_tier s.path byPath byFilename).isNone)).map
        (fun s => s.filename) with
    | nil => exact absurd hc hBne
    | cons x xs => rfl
  refine ⟨?_, ?_, ?_, ?_⟩ <;>
    simp [sync_playlist_to_target_core, hspec, hBfalse]

/-- Claim C5 witness: one unmatched track against an empty target index:
live run aborts with no write and reports the filename. -/
theorem claim_C5_witness :
    (sync_playlist_to_target_core "engine" [⟨"/a/x.mp3", "x.mp3"⟩]
        ([] : List (String × Nat)) [] false false
        (fun _ => WriteOutcome.ok true)).2 = none
    ∧ (sync_playlist_to_target_core "engine" [⟨"/a/x.mp3", "x.mp3"⟩]
        ([] : List (String × Nat)) [] false false
        (fun _ => WriteOutcome.ok true)).1.success = false := by
  have h := claim_C5 "engine" [⟨"/a/x.mp3", "x.mp3"⟩]
    ([] : List (String × Nat)) [] (fun _ => WriteOutcome.ok true)
    ⟨⟨"/a/x.mp3", "x.mp3"⟩, by decide, by decide⟩
  exact ⟨h.1, h.2.1⟩

end Manadj

namespace Manadj

/-- `TempoChange` descriptor from `src/backend/beatgrid_utils.py` (dict with
keys start_time, bpm, time_signature_num, time_signature_den, bar_position).
Python floats are modelled as exact rationals. -/
structure TempoChange where
  start_time : ℚ
  bpm : ℚ
  time_signature_num : Nat
  time_signature_den : Nat
  bar_position : Int
deriving DecidableEq

/-- The `while current_time <= duration` loop of
`calculate_beats_from_tempo_changes`, with explicit fuel.  Each iteration
emits the current time as a beat (and as a downbeat iff `bar_position = 1`),
then advances by one beat interval and cycles the bar position
(`%` on `Int` is `Int.emod`, matching Python's floor-mod). -/
def beatLoop (beat_interval duration : ℚ) (time_sig_num : Nat) :
    Nat → ℚ → Int → List ℚ × List ℚ
  | 0, _, _ => ([], [])
  | fuel + 1, current_time, current_bar_position =>
    if current_time ≤ duration then
      let rest := beatLoop beat_interval duration time_sig_num fuel
        (current_time + beat_interval)
        (current_bar_position % (time_sig_num : Int) + 1)
      (current_time :: rest.1,
       if current_bar_position = 1 then current_time :: rest.2 else rest.2)
    else ([], [])

/-- `calculate_beats_from_tempo_changes` from `src/backend/beatgrid_utils.py`.
Only the first tempo change is honoured.  `none` models exactly the
executions on which the Python code does not return: `bpm = 0` raises
ZeroDivisionError computing the interval (before the loop, so for every
duration); entering the loop (`start_time ≤ duration`) with `bpm < 0` never
exits it (each step decreases `current_time`, unless
`time_signature_num = 0` raises first); and entering the loop with
`time_signature_num = 0` raises ZeroDivisionError on the first bar-position
update.  A negative `bpm` with `start_time > duration` returns `([], [])`
normally, since the loop body never runs.  For `bpm > 0` the loop runs
exactly `⌊(duration - start_time) / interval⌋ + 1` iterations when
`start_time ≤ duration` and none otherwise, so the chosen fuel reproduces
the unbounded Python loop exactly. -/
def calculate_beats_from_tempo_changes (tempo_changes : List TempoChange)
    (duration : ℚ) : Option (List ℚ × List ℚ) :=
  match tempo_changes with
  | [] => some ([], [])
  | first_tempo :: _ =>
    if first_tempo.bpm = 0 then none
    else if first_tempo.start_time ≤ duration ∧ first_tempo.bpm < 0 then none
    else if first_tempo.start_time ≤ duration ∧ first_tempo.time_signature_num = 0
    then none
    else
      let beat_interval := (60 : ℚ) / first_tempo.bpm
      let fuel :=
        (⌊(duration - first_tempo.start_time) / beat_interval⌋).toNat + 1
      some (beatLoop beat_interval duration first_tempo.time_signature_num
        fuel first_tempo.start_time first_tempo.bar_position)

/-- All derived data of `generate_beatgrid_from_bpm`. -/
structure BeatgridData where
  tempo_changes : List TempoChange
  beat_times : List ℚ
  downbeat_times : List ℚ
deriving DecidableEq

/-- `generate_beatgrid_from_bpm` from `src/backend/beatgrid_utils.py`:
values above 500 are treated as centiBPM and divided by 100, then a single
4/4 tempo change at time 0 with bar position 1 is emitted and the beat lists
computed from it. -/
def generate_beatgrid_from_bpm (bpm duration : ℚ) : Option BeatgridData :=
  let bpm2 := if 500 < bpm then bpm / 100 else bpm
  let tempo_changes : List TempoChange :=
    [{ start_time := 0, bpm := bpm2, time_signature_num := 4,
       time_signature_den := 4, bar_position := 1 }]
  (calculate_beats_from_tempo_changes tempo_changes duration).map
    (fun r => { tempo_changes := tempo_changes, beat_times := r.1,
                downbeat_times := r.2 })

/-- Python `int()` applied to a rational: truncation toward zero. -/
def pythonIntTrunc (q : ℚ) : Int :=
  if 0 ≤ q then ⌊q⌋ else -(⌊-q⌋)

/-- `set_downbeat_at_time` from `src/backend/beatgrid_utils.py`: count whole
beats backward from the requested downbeat, compute the bar position of the
resulting first beat by modular arithmetic, and return the single-element
tempo-change list. -/
def set_downbeat_at_time (user_downbeat_time bpm : ℚ)
    (time_signature_num time_signature_den : Nat) : List TempoChange :=
  let beat_interval := (60 : ℚ) / bpm
  let num_beats_back := pythonIntTrunc (user_downbeat_time / beat_interval)
  let first_beat_time :=
    user_downbeat_time - (num_beats_back : ℚ) * beat_interval
  let beats_within_bar := num_beats_back % (time_signature_num : Int)
  let first_bar_position :=
    if beats_within_bar = 0 then 1
    else (time_signature_num : Int) - beats_within_bar + 1
  [{ start_time := first_beat_time, bpm := bpm,
     time_signature_num := time_signature_num,
     time_signature_den := time_signature_den,
     bar_position := first_bar_position }]

/-- `nudge_beatgrid` from `src/backend/beatgrid_utils.py`: shift the first
tempo change's start time by `offset_ms` milliseconds, clamped by
`max(-0.1, min(track_duration, new_start))`; later tempo changes are copied
unchanged; an empty list raises ValueError (modelled as `none`). -/
def nudge_beatgrid (tempo_changes : List TempoChange) (offset_ms : ℚ)
    (track_duration : ℚ) : Option (List TempoChange) :=
  match tempo_changes with
  | [] => none
  | tc :: rest =>
    let offset_s := offset_ms / 1000
    let new_start :=
      max (-(1 : ℚ)/10) (min track_duration (tc.start_time + offset_s))
    some ({ tc with start_time := new_start } :: rest)

end Manadj

namespace Manadj

/-- Claim C4 counterexample: at 120 BPM over 2.0 s the loop condition
`current_time <= duration` also admits the beat at exactly 2.0 s (whose bar
position has cycled back to 1), so the output is not the claimed
`([0, 0.5, 1, 1.5], [0])`. -/
theorem claim_C4_counterexample :
    calculate_beats_from_tempo_changes
      [{ start_time := 0, bpm := 120, time_signature_num := 4,
         time_signature_den := 4, bar_position := 1 }] 2 ≠
    some ([0, 1/2, 1, 3/2], [0]) := by
  norm_num [calculate_beats_from_tempo_changes, beatLoop]

/-- Claim C4 as amended: the single tempo change (start 0, 120 BPM, 4/4,
bar position 1) over duration 2.0 yields beats every 0.5 s up to and
including 2.0, with downbeats at 0.0 and 2.0. -/
theorem claim_C4_amended :
    calculate_beats_from_tempo_changes
      [{ start_time := 0, bpm := 120, time_signature_num := 4,
         time_signature_den := 4, bar_position := 1 }] 2 =
    some ([0, 1/2, 1, 3/2, 2], [0, 2]) := by
  norm_num [calculate_beats_from_tempo_changes, beatLoop]

/-- Claim C8 counterexample: a 0 ms nudge is not a no-op when the current
start time lies outside the clamp range (start 5 s, duration 3 s is clamped
to 3 s); and nudging past the duration yields the duration only when the
duration is at least -0.1 (with duration -1 the result is -0.1, not -1). -/
theorem claim_C8_counterexample :
    nudge_beatgrid [⟨5, 120, 4, 4, 1⟩] 0 3 ≠ some [⟨5, 120, 4, 4, 1⟩]
    ∧ nudge_beatgrid [⟨0, 120, 4, 4, 1⟩] 1000 (-1) ≠
      some [⟨-1, 120, 4, 4, 1⟩] := by
  constructor <;> norm_num [nudge_beatgrid, min_def, max_def]

/-- Claim C8 as amended: on a non-empty list only the first element's
start_time changes, to `max(-0.1, min(track_duration, old + offset_ms/1000))`
(everything else is returned unchanged); hence a 0 ms nudge is a no-op when
the old start_time already lies in `[-0.1, track_duration]`, an offset
pushing the start below -0.1 yields exactly -0.1, and — provided
`track_duration ≥ -0.1` — an offset pushing it past track_duration yields
exactly track_duration.  The empty list is rejected. -/
theorem claim_C8_amended (tc : TempoChange) (rest : List TempoChange)
    (offset_ms track_duration : ℚ) :
    nudge_beatgrid (tc :: rest) offset_ms track_duration =
      some ({ tc with
              start_time := max (-(1 : ℚ)/10) (min track_duration
                (tc.start_time + offset_ms / 1000)) } :: rest)
    ∧ nudge_beatgrid ([] : List TempoChange) offset_ms track_duration = none
    ∧ (-(1 : ℚ)/10 ≤ tc.start_time → tc.start_time ≤ track_duration →
        nudge_beatgrid (tc :: rest) 0 track_duration = some (tc :: rest))
    ∧ (tc.start_time + offset_ms / 1000 < -(1 : ℚ)/10 →
        nudge_beatgrid (tc :: rest) offset_ms track_duration =
          some ({ tc with start_time := -(1 : ℚ)/10 } :: rest))
    ∧ (-(1 : ℚ)/10 ≤ track_duration →
        track_duration < tc.start_time + offset_ms / 1000 →
        nudge_beatgrid (tc :: rest) offset_ms track_duration =
          some ({ tc with start_time := track_duration } :: rest)) := by
  refine ⟨rfl, rfl, ?_, ?_, ?_⟩
  · intro h1 h2
    simp only [nudge_beatgrid]
    rw [show tc.start_time + (0 : ℚ)/1000 = tc.start_time by norm_num,
      min_eq_right h2, max_eq_right h1]
  · intro h
    simp only [nudge_beatgrid]
    rw [max_eq_left (le_trans (min_le_right track_duration _) (le_of_lt h))]
  · intro hd h
    simp only [nudge_beatgrid]
    rw [min_eq_left (le_of_lt h), max_eq_right hd]

/-- Claim C8 witness: a 0 ms nudge of a grid starting at 0 s in a 100 s
track is a no-op. -/
theorem claim_C8_witness :
    nudge_beatgrid [⟨0, 120, 4, 4, 1⟩] 0 100 = some [⟨0, 120, 4, 4, 1⟩] := by
  have h := claim_C8_amended ⟨0, 120, 4, 4, 1⟩ [] 0 100
  exact h.2.2.1 (by norm_num) (by norm_num)

/-- Claim C10 counterexample: the unqualified "always emits exactly one
tempo change" fails on the executions that never return a grid: at bpm 0
the code raises ZeroDivisionError computing the beat interval, and at
bpm -120 with duration 1 the walk enters the loop and never exits it;
neither call returns anything (modelled `none`). -/
theorem claim_C10_counterexample :
    generate_beatgrid_from_bpm 0 1 = none
    ∧ generate_beatgrid_from_bpm (-120) 1 = none := by
  constructor <;>
    norm_num [generate_beatgrid_from_bpm, calculate_beats_from_tempo_changes]

/-- Claim C10 as amended: with effective bpm' = bpm/100 for bpm > 500
(centiBPM) and bpm' = bpm otherwise, every returning execution emits
exactly one tempo change {start_time 0, bpm', 4/4, bar_position 1} and
derives the beat lists from exactly that tempo change; and the call returns
if and only if bpm' is neither 0 (ZeroDivisionError) nor negative with
duration ≥ 0 (the loop never exits) — in particular it returns for every
positive bpm', and for a negative bpm' with negative duration it returns
the same single tempo change with empty beat lists. -/
theorem claim_C10_amended (bpm duration : ℚ) :
    (∀ g, generate_beatgrid_from_bpm bpm duration = some g →
      g.tempo_changes =
        [{ start_time := 0, bpm := if 500 < bpm then bpm / 100 else bpm,
           time_signature_num := 4, time_signature_den := 4,
           bar_position := 1 }]
      ∧ some (g.beat_times, g.downbeat_times) =
        calculate_beats_from_tempo_changes g.tempo_changes duration)
    ∧ ((generate_beatgrid_from_bpm bpm duration).isSome = true ↔
      ¬((if 500 < bpm then bpm / 100 else bpm) = 0
        ∨ (0 ≤ duration ∧ (if 500 < bpm then bpm / 100 else bpm) < 0))) := by
  constructor
  · intro g hg
    simp only [generate_beatgrid_from_bpm] at hg
    cases hc : calculate_beats_from_tempo_changes
        [{ start_time := 0, bpm := if 500 < bpm then bpm / 100 else bpm,
           time_signature_num := 4, time_signature_den := 4,
           bar_position := 1 }] duration with
    | none => rw [hc] at hg; simp at hg
    | some r =>
      rw [hc] at hg
      simp only [Option.map_some'] at hg
      injection hg with hg
      subst hg
      exact ⟨rfl, by rw [hc]⟩
  · simp only [generate_beatgrid_from_bpm, calculate_beats_from_tempo_changes]
    by_cases h0 : (if 500 < bpm then bpm / 100 else bpm) = 0
    · simp [h0]
    · by_cases hneg : 0 ≤ duration ∧ (if 500 < bpm then bpm / 100 else bpm) < 0
      · simp [h0, hneg]
      · simp [h0, hneg]

/-- Claim C10 witness: 600 is centiBPM for 6 BPM (a returning execution
whose single tempo change carries bpm 6), and bpm -120 with duration -1
also returns (the loop is never entered). -/
theorem claim_C10_witness :
    (generate_beatgrid_from_bpm 600 1).isSome = true
    ∧ (∃ g, generate_beatgrid_from_bpm 600 1 = some g
        ∧ g.tempo_changes =
          [{ start_time := 0, bpm := 6, time_signature_num := 4,
             time_signature_den := 4, bar_position := 1 }])
    ∧ (generate_beatgrid_from_bpm (-120) (-1)).isSome = true := by
  have h := claim_C10_amended 600 1
  have hneg := claim_C10_amended (-120) (-1)
  have hs : (generate_beatgrid_from_bpm 600 1).isSome = true := by
    rw [h.2]
    norm_num
  refine ⟨hs, ?_, ?_⟩
  · cases hg : generate_beatgrid_from_bpm 600 1 with
    | none => rw [hg] at hs; simp at hs
    | some g =>
      refine ⟨g, rfl, ?_⟩
      have ht := (h.1 g hg).1
      rw [ht]
      norm_num
  · rw [hneg.2]
    norm_num

end Manadj

namespace Manadj

/-- Iterated Python bar-position update `b -> (b % m) + 1`. -/
def barIter (m b : Int) : Nat → Int
  | 0 => b
  | k + 1 => barIter m (b % m + 1) k

/-- Closed form of the bar-position cycle in 4/4: starting from a position
in 1..4, after `k` steps the position is `((b - 1 + k) % 4) + 1`. -/
lemma barIter_four (k : Nat) : ∀ b : Int, 1 ≤ b → b ≤ 4 →
    barIter 4 b k = (b - 1 + (k : Int)) % 4 + 1 := by
  induction k with
  | zero =>
    intro b h1 h4
    simp only [barIter]
    omega
  | succ k ih =>
    intro b h1 h4
    have hstep : barIter 4 b (k + 1) = barIter 4 (b % 4 + 1) k := rfl
    rw [hstep, ih (b % 4 + 1) (by omega) (by omega)]
    omega

/-- If the forward walk has enough fuel and the `k`-th beat lands inside the
track while the bar cycle puts position 1 there, that beat time is emitted
as a downbeat. -/
lemma beatLoop_downbeat_mem (beat_interval duration : ℚ) (n : Nat)
    (hi : 0 < beat_interval) :
    ∀ (k fuel : Nat) (t0 : ℚ) (b : Int), k < fuel →
      t0 + (k : ℚ) * beat_interval ≤ duration →
      barIter (n : Int) b k = 1 →
      t0 + (k : ℚ) * beat_interval ∈
        (beatLoop beat_interval duration n fuel t0 b).2 := by
  intro k
  induction k with
  | zero =>
    intro fuel t0 b hk hle hbar
    match fuel, hk with
    | fuel + 1, _ =>
      have ht0 : t0 ≤ duration := by simpa using hle
      have hb1 : b = 1 := hbar
      have hz : t0 + ((0 : Nat) : ℚ) * beat_interval = t0 := by push_cast; ring
      rw [hz]
      simp only [beatLoop, if_pos ht0, hb1]
      simp
  | succ k ih =>
    intro fuel t0 b hk hle hbar
    match fuel, hk with
    | fuel + 1, hk =>
      have hfk : k < fuel := by omega
      have hnn : (0 : ℚ) ≤ ((k + 1 : Nat) : ℚ) * beat_interval := by positivity
      have ht0 : t0 ≤ duration := by nlinarith
      have heq : t0 + ((k + 1 : Nat) : ℚ) * beat_interval =
          (t0 + beat_interval) + (k : ℚ) * beat_interval := by push_cast; ring
      have hbar2 : barIter (n : Int) (b % (n : Int) + 1) k = 1 := hbar
      have hle2 : (t0 + beat_interval) + (k : ℚ) * beat_interval ≤ duration := by
        rw [← heq]; exact hle
      have hmem := ih fuel (t0 + beat_interval) (b % (n : Int) + 1) hfk hle2 hbar2
      rw [heq]
      simp only [beatLoop, if_pos ht0]
      by_cases hb : b = 1
      · rw [hb] at hmem
        simp only [hb, if_pos rfl]
        exact List.mem_cons_of_mem _ hmem
      · simp only [if_neg hb]
        exact hmem

end Manadj

namespace Manadj

/-- Claim C7: for bpm > 0 and a downbeat time t with 0 ≤ t ≤ duration, the
grid produced by `set_downbeat_at_time t bpm 4 4` makes the forward walk of
`calculate_beats_from_tempo_changes` land exactly on t with bar position 1,
so t itself appears in the computed downbeat list. -/
theorem claim_C7 (bpm t duration : ℚ) (hb : 0 < bpm) (ht : 0 ≤ t)
    (htd : t ≤ duration) :
    ∃ r, calculate_beats_from_tempo_changes
        (set_downbeat_at_time t bpm 4 4) duration = some r
      ∧ t ∈ r.2 := by
  have hbi : (0 : ℚ) < 60 / bpm := by positivity
  have hdiv0 : (0 : ℚ) ≤ t / (60 / bpm) := by positivity
  have htr : pythonIntTrunc (t / (60 / bpm)) = ⌊t / (60 / bpm)⌋ := by
    unfold pythonIntTrunc
    rw [if_pos hdiv0]
  have hnbb0 : (0 : Int) ≤ ⌊t / (60 / bpm)⌋ := Int.floor_nonneg.mpr hdiv0
  have hsd : set_downbeat_at_time t bpm 4 4 =
      [{ start_time := t - (⌊t / (60 / bpm)⌋ : ℚ) * (60 / bpm), bpm := bpm,
         time_signature_num := 4, time_signature_den := 4,
         bar_position := if ⌊t / (60 / bpm)⌋ % 4 = 0 then 1
           else 4 - ⌊t / (60 / bpm)⌋ % 4 + 1 }] := by
    simp only [set_downbeat_at_time, htr, Nat.cast_ofNat]
  rw [hsd]
  simp only [calculate_beats_from_tempo_changes]
  rw [if_neg (ne_of_gt hb),
    if_neg (fun hc => absurd hc.2 (not_lt.mpr (le_of_lt hb)) :
      ¬(t - (⌊t / (60 / bpm)⌋ : ℚ) * (60 / bpm) ≤ duration ∧ bpm < 0)),
    if_neg (by simp :
      ¬(t - (⌊t / (60 / bpm)⌋ : ℚ) * (60 / bpm) ≤ duration ∧ (4 : Nat) = 0))]
  refine ⟨_, rfl, ?_⟩
  have hkz : ((⌊t / (60 / bpm)⌋.toNat : Nat) : Int) = ⌊t / (60 / bpm)⌋ :=
    Int.toNat_of_nonneg hnbb0
  have hkq : ((⌊t / (60 / bpm)⌋.toNat : Nat) : ℚ) = ((⌊t / (60 / bpm)⌋ : Int) : ℚ) := by
    exact_mod_cast congrArg (fun z : Int => (z : ℚ)) hkz
  have hteq : (t - (⌊t / (60 / bpm)⌋ : ℚ) * (60 / bpm)) +
      ((⌊t / (60 / bpm)⌋.toNat : Nat) : ℚ) * (60 / bpm) = t := by
    rw [hkq]; ring
  have hle : (t - (⌊t / (60 / bpm)⌋ : ℚ) * (60 / bpm)) +
      ((⌊t / (60 / bpm)⌋.toNat : Nat) : ℚ) * (60 / bpm) ≤ duration := by
    rw [hteq]; exact htd
  have hfuel : ⌊t / (60 / bpm)⌋.toNat <
      (⌊(duration - (t - (⌊t / (60 / bpm)⌋ : ℚ) * (60 / bpm))) / (60 / bpm)⌋).toNat + 1 := by
    have h1 : (⌊t / (60 / bpm)⌋ : ℚ) * (60 / bpm) ≤
        duration - (t - (⌊t / (60 / bpm)⌋ : ℚ) * (60 / bpm)) := by
      have hrw : duration - (t - (⌊t / (60 / bpm)⌋ : ℚ) * (60 / bpm)) =
          duration - t + (⌊t / (60 / bpm)⌋ : ℚ) * (60 / bpm) := by ring
      rw [hrw]; linarith
    have h2 : (⌊t / (60 / bpm)⌋ : ℚ) ≤
        (duration - (t - (⌊t / (60 / bpm)⌋ : ℚ) * (60 / bpm))) / (60 / bpm) :=
      (le_div_iff₀ hbi).mpr h1
    have h3 : ⌊t / (60 / bpm)⌋ ≤
        ⌊(duration - (t - (⌊t / (60 / bpm)⌋ : ℚ) * (60 / bpm))) / (60 / bpm)⌋ :=
      Int.le_floor.mpr h2
    omega
  have hbar : barIter ((4 : Nat) : Int)
      (if ⌊t / (60 / bpm)⌋ % 4 = 0 then 1 else 4 - ⌊t / (60 / bpm)⌋ % 4 + 1)
      (⌊t / (60 / bpm)⌋.toNat) = 1 := by
    have hBAR1 : 1 ≤ (if ⌊t / (60 / bpm)⌋ % 4 = 0 then 1
        else 4 - ⌊t / (60 / bpm)⌋ % 4 + 1) := by split <;> omega
    have hBAR4 : (if ⌊t / (60 / bpm)⌋ % 4 = 0 then 1
        else 4 - ⌊t / (60 / bpm)⌋ % 4 + 1) ≤ (4 : Int) := by split <;> omega
    have h4 : ((4 : Nat) : Int) = (4 : Int) := by norm_num
    rw [h4, barIter_four (⌊t / (60 / bpm)⌋.toNat) _ hBAR1 hBAR4, hkz]
    split <;> omega
  have hmem := beatLoop_downbeat_mem (60 / bpm) duration 4 hbi
    (⌊t / (60 / bpm)⌋.toNat)
    ((⌊(duration - (t - (⌊t / (60 / bpm)⌋ : ℚ) * (60 / bpm))) / (60 / bpm)⌋).toNat + 1)
    (t - (⌊t / (60 / bpm)⌋ : ℚ) * (60 / bpm))
    (if ⌊t / (60 / bpm)⌋ % 4 = 0 then 1 else 4 - ⌊t / (60 / bpm)⌋ % 4 + 1)
    hfuel hle hbar
  rw [hteq] at hmem
  exact hmem

end Manadj

namespace Manadj

/-- Claim C7 witness: downbeat requested at 1.25 s, 120 BPM, 2 s track: the
recomputed grid's downbeat list contains exactly 1.25 s. -/
theorem claim_C7_witness :
    (0 : ℚ) < 120 ∧ (0 : ℚ) ≤ 5/4 ∧ (5/4 : ℚ) ≤ 2 ∧
    ∃ r, calculate_beats_from_tempo_changes
        (set_downbeat_at_time (5/4) 120 4 4) 2 = some r
      ∧ (5/4 : ℚ) ∈ r.2 := by
  exact ⟨by norm_num, by norm_num, by norm_num,
    claim_C7 120 (5/4) 2 (by norm_num) (by norm_num) (by norm_num)⟩

end Manadj

namespace Manadj

/-- The static `_ENGINE_TO_ALL` table of `src/backend/key.py`:
engine id to (musical, camelot, openkey, mixxx id). -/
def engineToAllTable : List (Int × String × String × String × Int) :=
  [(0, "C", "8B", "1d", 1), (1, "Am", "8A", "1m", 22), (2, "G", "9B", "2d", 8),
   (3, "Em", "9A", "2m", 17), (4, "D", "10B", "3d", 3), (5, "Bm", "10A", "3m", 24),
   (6, "A", "11B", "4d", 10), (7, "F#m", "11A", "4m", 19), (8, "E", "12B", "5d", 5),
   (9, "C#m", "12A", "5m", 14), (10, "B", "1B", "6d", 12), (11, "G#m", "1A", "6m", 21),
   (12, "F#", "2B", "7d", 7), (13, "D#m", "2A", "7m", 16), (14, "Db", "3B", "8d", 2),
   (15, "Bbm", "3A", "8m", 23), (16, "Ab", "4B", "9d", 9), (17, "Fm", "4A", "9m", 18),
   (18, "Eb", "5B", "10d", 4), (19, "Cm", "5A", "10m", 13), (20, "Bb", "6B", "11d", 11),
   (21, "Gm", "6A", "11m", 20), (22, "F", "7B", "12d", 6), (23, "Dm", "7A", "12m", 15)]

/-- Forward lookup in the table (Python dict access on `_ENGINE_TO_ALL`). -/
def engineToAll (engine_id : Int) : Option (String × String × String × Int) :=
  (engineToAllTable.find? (fun e => e.1 == engine_id)).map (fun e => e.2)

/-- `_MUSICAL_TO_ENGINE`, the reverse dict built from the same table (all
musical names are distinct, so first match equals Python's last-wins). -/
def musicalToEngine (s : String) : Option Int :=
  (engineToAllTable.find? (fun e => e.2.1 == s)).map (fun e => e.1)

/-- `_CAMELOT_TO_ENGINE` reverse lookup. -/
def camelotToEngine (s : String) : Option Int :=
  (engineToAllTable.find? (fun e => e.2.2.1 == s)).map (fun e => e.1)

/-- `_OPENKEY_TO_ENGINE` reverse lookup. -/
def openkeyToEngine (s : String) : Option Int :=
  (engineToAllTable.find? (fun e => e.2.2.2.1 == s)).map (fun e => e.1)

/-- `_MIXXX_TO_ENGINE` reverse lookup. -/
def mixxxToEngine (m : Int) : Option Int :=
  (engineToAllTable.find? (fun e => e.2.2.2.2 == m)).map (fun e => e.1)

/-- The `_ENHARMONIC` table of enharmonic equivalents and alternative
spellings, in source order. -/
def enharmonicTable : List (String × String) :=
  [("Gb", "F#"), ("Gbm", "F#m"), ("C#", "Db"), ("Dbm", "C#m"), ("Ab", "Ab"),
   ("Abm", "G#m"), ("Eb", "Eb"), ("Ebm", "D#m"), ("Bb", "Bb"), ("Bbm", "Bbm"),
   ("C Major", "C"), ("C Minor", "Cm"), ("G Major", "G"), ("G Minor", "Gm"),
   ("D Major", "D"), ("D Minor", "Dm"), ("A Major", "A"), ("A Minor", "Am"),
   ("E Major", "E"), ("E Minor", "Em"), ("B Major", "B"), ("B Minor", "Bm"),
   ("F Major", "F"), ("F Minor", "Fm"), ("Db Major", "Db"), ("Db Minor", "C#m"),
   ("Ab Major", "Ab"), ("Ab Minor", "G#m"), ("Eb Major", "Eb"),
   ("Eb Minor", "D#m"), ("Bb Major", "Bb"), ("Bb Minor", "Bbm"),
   ("F# Major", "F#"), ("F# Minor", "F#m"), ("C# Major", "Db"),
   ("C# Minor", "C#m"), ("G# Major", "Ab"), ("G# Minor", "G#m")]

/-- `_ENHARMONIC.get(key)`. -/
def enharmonicLookup (s : String) : Option String :=
  (enharmonicTable.find? (fun e => e.1 == s)).map (fun e => e.2)

/-- `Key` from `src/backend/key.py`: immutable value object whose only field
is the canonical Engine DJ id (0-23) or `none`; equality is field equality,
exactly as Python compares `_engine_id`. -/
structure Key where
  engine_id : Option Int
deriving DecidableEq

/-- `Key.from_engine_id`: valid table keys only, `none` otherwise. -/
def Key.from_engine_id (engine_id : Option Int) : Option Key :=
  match engine_id with
  | none => none
  | some k => if (engineToAll k).isSome then some ⟨some k⟩ else none

/-- `Key.from_openkey`. -/
def Key.from_openkey (openkey : Option String) : Option Key :=
  match openkey with
  | none => none
  | some s =>
    match openkeyToEngine s with
    | none => none
    | some k => some ⟨some k⟩

/-- `Key.from_camelot`. -/
def Key.from_camelot (camelot : Option String) : Option Key :=
  match camelot with
  | none => none
  | some s =>
    match camelotToEngine s with
    | none => none
    | some k => some ⟨some k⟩

/-- `Key.from_mixxx_id`. -/
def Key.from_mixxx_id (mixxx_id : Option Int) : Option Key :=
  match mixxx_id with
  | none => none
  | some m =>
    match mixxxToEngine m with
    | none => none
    | some k => some ⟨some k⟩

/-- `Key.from_musical`: direct table lookup, then the OpenKey fallback for
strings of length at least 2 ending in m/d, then the Camelot fallback for
strings ending in A/B, then the enharmonic/alternative-spelling table. -/
def Key.from_musical (key : Option String) : Option Key :=
  match key with
  | none => none
  | some s =>
    match musicalToEngine s with
    | some k => some ⟨some k⟩
    | none =>
      match (if (s.endsWith "m" || s.endsWith "d") = true ∧ 2 ≤ s.length then
          Key.from_openkey (some s) else none) with
      | some k => some k
      | none =>
        match (if (s.endsWith "A" || s.endsWith "B") = true ∧ 2 ≤ s.length then
            Key.from_camelot (some s) else none) with
        | some k => some k
        | none =>
          match enharmonicLookup s with
          | none => none
          | some canonical =>
            match musicalToEngine canonical with
            | none => none
            | some k => some ⟨some k⟩

/-- `Key.musical` property: musical notation from the canonical id. -/
def Key.musical (key : Key) : Option String :=
  key.engine_id.bind (fun k => (engineToAll k).map (fun e => e.1))

/-- `Key.camelot` property. -/
def Key.camelot (key : Key) : Option String :=
  key.engine_id.bind (fun k => (engineToAll k).map (fun e => e.2.1))

/-- `Key.openkey` property. -/
def Key.openkey (key : Key) : Option String :=
  key.engine_id.bind (fun k => (engineToAll k).map (fun e => e.2.2.1))

/-- `Key.mixxx_id` property. -/
def Key.mixxx_id (key : Key) : Option Int :=
  key.engine_id.bind (fun k => (engineToAll k).map (fun e => e.2.2.2))

/-- Claim C6: for every canonical engine id 0-23, reading back any of the
four views (musical, openkey, camelot, mixxx id) of `from_engine_id k` and
re-parsing it with the matching factory returns the same Key. -/
theorem claim_C6 (k : Nat) (h : k < 24) :
    (Key.from_engine_id (some (k : Int))).bind
        (fun key => Key.from_musical key.musical) =
      Key.from_engine_id (some (k : Int))
    ∧ (Key.from_engine_id (some (k : Int))).bind
        (fun key => Key.from_openkey key.openkey) =
      Key.from_engine_id (some (k : Int))
    ∧ (Key.from_engine_id (some (k : Int))).bind
        (fun key => Key.from_camelot key.camelot) =
      Key.from_engine_id (some (k : Int))
    ∧ (Key.from_engine_id (some (k : Int))).bind
        (fun key => Key.from_mixxx_id key.mixxx_id) =
      Key.from_engine_id (some (k : Int)) := by
  revert k
  decide

/-- Claim C6 witness: the round trips at engine id 7 (F#m / 11A / 4m / 19). -/
theorem claim_C6_witness :
    (Key.from_engine_id (some ((7 : Nat) : Int))).bind
        (fun key => Key.from_musical key.musical) =
      Key.from_engine_id (some ((7 : Nat) : Int))
    ∧ (Key.from_engine_id (some ((7 : Nat) : Int))).bind
        (fun key => Key.from_openkey key.openkey) =
      Key.from_engine_id (some ((7 : Nat) : Int))
    ∧ (Key.from_engine_id (some ((7 : Nat) : Int))).bind
        (fun key => Key.from_camelot key.camelot) =
      Key.from_engine_id (some ((7 : Nat) : Int))
    ∧ (Key.from_engine_id (some ((7 : Nat) : Int))).bind
        (fun key => Key.from_mixxx_id key.mixxx_id) =
      Key.from_engine_id (some ((7 : Nat) : Int)) :=
  claim_C6 7 (by norm_num)

end Manadj

namespace Manadj

/-- manadj `Track` as used by `src/enginedj/sync.py`: its `filename` column
holds the full path. -/
structure ManAdjTrack where
  filename : String
deriving DecidableEq

/-- Engine DJ `Track` as used by `src/enginedj/sync.py`: optional absolute
`path` and optional `filename`. -/
structure EDJTrack where
  path : Option String
  filename : Option String
deriving DecidableEq

/-- `index_engine_tracks` from `src/enginedj/sync.py`: dict comprehensions
over path (skipping falsy paths) and basename of filename (skipping falsy
filenames); later tracks overwrite earlier ones on key collisions. -/
def index_engine_tracks (edj_tracks : List EDJTrack) :
    List (String × EDJTrack) × List (String × EDJTrack) :=
  (edj_tracks.foldl
    (fun acc t =>
      match t.path with
      | some p => if p = "" then acc else dictInsert p t acc
      | none => acc) [],
   edj_tracks.foldl
    (fun acc t =>
      match t.filename with
      | some f => if f = "" then acc else dictInsert (pathBasename f) t acc
      | none => acc) [])

/-- `match_track` from `src/enginedj/sync.py`: two-tier match of a manadj
track (whose `filename` field is its full path) against the Engine DJ
indexes. -/
def match_track (manadj_track : ManAdjTrack)
    (edj_tracks_by_path edj_tracks_by_filename : List (String × EDJTrack)) :
    Option EDJTrack :=
  match dictLookup manadj_track.filename edj_tracks_by_path with
  | some t => some t
  | none =>
    dictLookup (pathBasename manadj_track.filename) edj_tracks_by_filename

/-- The stats dict returned by `find_missing_tracks_in_enginedj`. -/
structure EngineDJStats where
  manadj_tracks : Nat
  enginedj_tracks : Nat
  missing_count : Nat
  skipped_file_not_found : Nat
deriving DecidableEq

/-- `find_missing_tracks_in_enginedj` from `src/enginedj/sync.py`: for each
manadj track, attempt the two-tier match; unmatched tracks are missing,
except that with `validate_paths` set an unmatched track whose file does not
exist on disk is skipped and counted separately.  The filesystem is passed
in as the pure predicate `fileExists`; the function reads both track lists
and mutates neither. -/
def find_missing_tracks_in_enginedj (manadj_tracks : List ManAdjTrack)
    (edj_tracks : List EDJTrack) (validate_paths : Bool)
    (fileExists : String → Bool) : List ManAdjTrack × EngineDJStats :=
  let idx := index_engine_tracks edj_tracks
  let r := manadj_tracks.foldl
    (fun (acc : List ManAdjTrack × Nat) track =>
      match match_track track idx.1 idx.2 with
      | some _ => acc
      | none =>
        if validate_paths then
          if fileExists track.filename then (acc.1 ++ [track], acc.2)
          else (acc.1, acc.2 + 1)
        else (acc.1 ++ [track], acc.2))
    ([], 0)
  (r.1, { manadj_tracks := manadj_tracks.length,
          enginedj_tracks := edj_tracks.length,
          missing_count := r.1.length,
          skipped_file_not_found := r.2 })

/-- The validate-paths reconciliation loop, accumulator-generalized:
missing collects the unmatched tracks whose file exists, the counter adds
one per unmatched track whose file is absent. -/
lemma find_missing_loop_acc (byPath byFilename : List (String × EDJTrack))
    (fileExists : String → Bool) :
    ∀ (tracks : List ManAdjTrack) (acc : List ManAdjTrack × Nat),
      tracks.foldl
        (fun (acc : List ManAdjTrack × Nat) track =>
          match match_track track byPath byFilename with
          | some _ => acc
          | none =>
            if fileExists track.filename then (acc.1 ++ [track], acc.2)
            else (acc.1, acc.2 + 1)) acc =
      (acc.1 ++ tracks.filter (fun t =>
          (match_track t byPath byFilename).isNone && fileExists t.filename),
       acc.2 + (tracks.filter (fun t =>
          (match_track t byPath byFilename).isNone &&
            !fileExists t.filename)).length) := by
  intro tracks
  induction tracks with
  | nil => intro acc; simp
  | cons t rest ih =>
    intro acc
    cases hm : match_track t byPath byFilename with
    | some x =>
      simp only [List.foldl_cons, hm]
      rw [ih]
      simp [List.filter_cons, hm]
    | none =>
      cases hf : fileExists t.filename with
      | true =>
        simp only [List.foldl_cons, hm, hf]
        rw [ih]
        simp [List.filter_cons, hm, hf]
      | false =>
        simp only [List.foldl_cons, hm, hf]
        rw [ih]
        simp [List.filter_cons, hm, hf]
        omega

/-- Claim C9: with `validate_paths = true`, the missing list is exactly the
source tracks that fail the two-tier match and whose backing file exists;
unmatched tracks with no backing file are excluded and counted in
`skipped_file_not_found`; the stats echo the input sizes; and the function
is a pure read-side diff of its inputs. -/
theorem claim_C9 (manadj_tracks : List ManAdjTrack) (edj_tracks : List EDJTrack)
    (fileExists : String → Bool) :
    (find_missing_tracks_in_enginedj manadj_tracks edj_tracks true
        fileExists).1 =
      manadj_tracks.filter (fun t =>
        (match_track t (index_engine_tracks edj_tracks).1
          (index_engine_tracks edj_tracks).2).isNone && fileExists t.filename)
    ∧ (find_missing_tracks_in_enginedj manadj_tracks edj_tracks true
        fileExists).2.skipped_file_not_found =
      (manadj_tracks.filter (fun t =>
        (match_track t (index_engine_tracks edj_tracks).1
          (index_engine_tracks edj_tracks).2).isNone &&
        !fileExists t.filename)).length
    ∧ (find_missing_tracks_in_enginedj manadj_tracks edj_tracks true
        fileExists).2.missing_count =
      (find_missing_tracks_in_enginedj manadj_tracks edj_tracks true
        fileExists).1.length
    ∧ (find_missing_tracks_in_enginedj manadj_tracks edj_tracks true
        fileExists).2.manadj_tracks = manadj_tracks.length
    ∧ (find_missing_tracks_in_enginedj manadj_tracks edj_tracks true
        fileExists).2.enginedj_tracks = edj_tracks.length := by
  have hloop := find_missing_loop_acc (index_engine_tracks edj_tracks).1
    (index_engine_tracks edj_tracks).2 fileExists manadj_tracks ([], 0)
  refine ⟨?_, ?_, ?_, ?_, ?_⟩ <;>
    simp [find_missing_tracks_in_enginedj, hloop]

end Manadj
